import Mathlib

/-!
Verification development for the tipificador backend
(`src/backend/app/main.py`).  The Python source is shallowly embedded:
pure helpers become Lean functions on `String` / `List Char`, the
classifier and the auto-classify passes become pure functions
parameterised by the per-page texts, the process endpoint becomes an
`Except`-returning function, and the metadata writers become explicit
step lists over a small file-system state.

Modelling conventions:
* Texts are `String`s; character classes (`\d`, `\w`, `\s`, upper/lower
  case) are modelled over the ASCII range, which covers every pattern
  the source matches and every literal input used in the theorems.
* `unicodedata.normalize("NFD", ...)` followed by removal of combining
  marks is modelled by `stripChar`, which decomposes the precomposed
  Latin letters that occur in Spanish text and drops combining marks.
* Machine-external effects (PyMuPDF rendering, tesseract, GCS, the
  filesystem cache) are inputs of the embedded functions: the OCR texts,
  cached texts and extractor results are parameters.
-/

-- ===================================================================
-- Character utilities (ASCII model of Python's str semantics)
-- ===================================================================

/-- Python whitespace (`str.strip`, regex `\s`), ASCII range: space, TAB,
LF, VT, FF, CR. -/
def pyWs (c : Char) : Bool :=
  decide (c.toNat = 32 ∨ c.toNat = 9 ∨ c.toNat = 10 ∨ c.toNat = 11 ∨
    c.toNat = 12 ∨ c.toNat = 13)

/-- ASCII decimal digit, the model of regex `\d` and `str.isdigit`. -/
def isDigitC (c : Char) : Bool :=
  decide (48 ≤ c.toNat ∧ c.toNat ≤ 57)

/-- ASCII uppercase letter `A`-`Z` (regex class `[A-Z]`). -/
def isUpperC (c : Char) : Bool :=
  decide (65 ≤ c.toNat ∧ c.toNat ≤ 90)

/-- ASCII lowercase letter `a`-`z`. -/
def isLowerC (c : Char) : Bool :=
  decide (97 ≤ c.toNat ∧ c.toNat ≤ 122)

/-- Regex word character `\w` (ASCII model): letter, digit or underscore. -/
def isWordC (c : Char) : Bool :=
  isDigitC c || isUpperC c || isLowerC c || decide (c = '_')

/-- ASCII model of `str.upper` on a character. -/
def asciiUpper (c : Char) : Char :=
  if isLowerC c then Char.ofNat (c.toNat - 32) else c

/-- ASCII model of `str.lower` on a character. -/
def asciiLower (c : Char) : Char :=
  if isUpperC c then Char.ofNat (c.toNat + 32) else c

/-- `str.strip()` on a character list: drop whitespace at both ends. -/
def pyStripL (l : List Char) : List Char :=
  ((l.dropWhile pyWs).reverse.dropWhile pyWs).reverse

/-- `str.strip()` on a string. -/
def pyStrip (s : String) : String :=
  String.mk (pyStripL s.data)

/-- Does `p` occur as a prefix of `l`? -/
def listPrefixOf : List Char → List Char → Bool
  | [], _ => true
  | _ :: _, [] => false
  | p :: ps, c :: cs => (p == c) && listPrefixOf ps cs

/-- Does `pat` occur as a contiguous sublist of `hay`?  This is the model
of Python's `pat in hay` on strings. -/
def containsL (hay pat : List Char) : Bool :=
  match hay with
  | [] => listPrefixOf pat []
  | _ :: rest => listPrefixOf pat hay || containsL rest pat

/-- Python substring test `p in t`. -/
def containsSub (t p : String) : Bool :=
  containsL t.data p.data

/-- `str.startswith`. -/
def pyStartsWith (s pre : String) : Bool :=
  listPrefixOf pre.data s.data

/-- `str.endswith`. -/
def pyEndsWith (s suffix : String) : Bool :=
  listPrefixOf suffix.data.reverse s.data.reverse

/-- One character of `_strip_accents`: NFD decomposition followed by
removal of the combining-mark (Mn) category, restricted to the Latin
letters that occur in this domain.  Free-standing combining marks
(U+0300..U+036F) are dropped; precomposed accented Latin letters map to
their base letter; everything else is kept. -/
def stripChar (c : Char) : Option Char :=
  if 0x300 ≤ c.toNat ∧ c.toNat ≤ 0x36F then none
  else if c = 'Á' ∨ c = 'á' ∨ c = 'À' ∨ c = 'à' ∨ c = 'Ä' ∨ c = 'ä' then some 'A'
  else if c = 'É' ∨ c = 'é' ∨ c = 'È' ∨ c = 'è' ∨ c = 'Ë' ∨ c = 'ë' then some 'E'
  else if c = 'Í' ∨ c = 'í' ∨ c = 'Ì' ∨ c = 'ì' ∨ c = 'Ï' ∨ c = 'ï' then some 'I'
  else if c = 'Ó' ∨ c = 'ó' ∨ c = 'Ò' ∨ c = 'ò' ∨ c = 'Ö' ∨ c = 'ö' then some 'O'
  else if c = 'Ú' ∨ c = 'ú' ∨ c = 'Ù' ∨ c = 'ù' ∨ c = 'Ü' ∨ c = 'ü' then some 'U'
  else if c = 'Ñ' ∨ c = 'ñ' then some 'N'
  else some c

/-- `_strip_accents`: NFD + drop combining marks (see `stripChar`). -/
def strip_accents (s : String) : String :=
  String.mk (s.data.filterMap stripChar)

/-- `_normalize_ocr_text`: strip accents, then uppercase. -/
def normalize_ocr_text (s : String) : String :=
  String.mk ((s.data.filterMap stripChar).map asciiUpper)

-- ===================================================================
-- Rule classifier (`_classify_text` and its helpers)
-- ===================================================================

/-- The five business categories. -/
inductive Cat
  | CRC
  | FEV
  | HEV
  | OPF
  | PDE
deriving DecidableEq

/-- The fixed category order `CATEGORIES` of the source. -/
def CATEGORIES : List Cat :=
  [Cat.CRC, Cat.FEV, Cat.HEV, Cat.OPF, Cat.PDE]

/-- Category tag as the string used in file names. -/
def catName : Cat → String
  | Cat.CRC => "CRC"
  | Cat.FEV => "FEV"
  | Cat.HEV => "HEV"
  | Cat.OPF => "OPF"
  | Cat.PDE => "PDE"

/-- `_AUTO_RULES_STRONG`, verbatim from the source (the accented variants
can never match a normalised text, exactly as in the source). -/
def AUTO_RULES_STRONG : List (Cat × List String) :=
  [ (Cat.PDE, ["AUTORIZACION SERVICIOS", "AUTORIZACION SERVICIOS "]),
    (Cat.OPF, ["ORDEN MEDICA", "ORDEN MÉDICA"]),
    (Cat.CRC, ["REGISTRO DE ATENCION DOMICILIARIA",
               "REGISTRO DE ATENCIÓN DOMICILIARIA"]),
    (Cat.HEV, ["CERTIFICACION PRESTACION DE SERVICIOS",
               "CERTIFICACION PRESTACION DE SERVICIOS POR CONCEPTO",
               "CERTIFICACION DETALLE DE CARGOS"]),
    (Cat.HEV, ["REGISTRO DE ACTIVIDADES DE CUIDADO",
               "REGISTRO DE ACTIVIDADES DE CUIDADOR"]),
    (Cat.HEV, ["HISTORIA CLINICA", "HISTORIA CLÍNICA", "TRABAJO SOCIAL"]),
    (Cat.FEV, ["FACTURA ELECTRONICA DE VENTA", "NOTA DE CREDITO ELECTRONICA",
               "NOTA DE CRÉDITO ELECTRONICA", "DETALLE DE CARGOS",
               "FACTURA OCFE"]) ]

/-- The `for cat, patterns in _AUTO_RULES_STRONG` loop of
`_classify_text`: first rule whose pattern occurs in `t`. -/
def rulesMatch : List (Cat × List String) → String → Option Cat
  | [], _ => none
  | (cat, pats) :: rest, t =>
    if pats.any (fun p => containsSub t p) then some cat else rulesMatch rest t

/-- Word-boundary test against the preceding character (`none` = start of
text): `\b` holds before a word character iff the previous character is
absent or not a word character. -/
def boundaryB : Option Char → Bool
  | none => true
  | some c => !(isWordC c)

/-- Does the list start with `dd/dd/dddd` followed by a word boundary
(the shape matched by `_DATE_RE`, `\b\d{2}/\d{2}/\d{4}\b`, at one
position)? -/
def dateShape (l : List Char) : Bool :=
  match l with
  | a :: b :: s1 :: c :: d :: s2 :: e :: f :: g :: h :: rest =>
      isDigitC a && isDigitC b && (s1 == '/') && isDigitC c && isDigitC d &&
      (s2 == '/') && isDigitC e && isDigitC f && isDigitC g && isDigitC h &&
      (match rest with
       | [] => true
       | x :: _ => !(isWordC x))
  | _ => false

/-- Does the list start with `dd:dd` followed by a word boundary (the
shape matched by `_TIME_RE`, `\b\d{2}:\d{2}\b`, at one position)? -/
def timeShape (l : List Char) : Bool :=
  match l with
  | a :: b :: s :: c :: d :: rest =>
      isDigitC a && isDigitC b && (s == ':') && isDigitC c && isDigitC d &&
      (match rest with
       | [] => true
       | x :: _ => !(isWordC x))
  | _ => false

/-- `len(_DATE_RE.findall(t))`: count non-overlapping date matches,
scanning left to right and resuming after each match, with `prev` the
character before the current position (for `\b`). -/
def countDates (prev : Option Char) (l : List Char) : Nat :=
  match l with
  | [] => 0
  | c :: rest =>
    if boundaryB prev && dateShape (c :: rest) then
      1 + countDates (some (rest.getD 8 ' ')) (rest.drop 9)
    else countDates (some c) rest
termination_by l.length
decreasing_by
  all_goals simp [List.length_drop]
  omega

/-- `len(_TIME_RE.findall(t))`: count non-overlapping time matches. -/
def countTimes (prev : Option Char) (l : List Char) : Nat :=
  match l with
  | [] => 0
  | c :: rest =>
    if boundaryB prev && timeShape (c :: rest) then
      1 + countTimes (some (rest.getD 3 ' ')) (rest.drop 4)
    else countTimes (some c) rest
termination_by l.length
decreasing_by
  all_goals simp [List.length_drop]
  omega

/-- The header keyword tuple of `_has_crc_table_hint`. -/
def headerKeys : List String :=
  ["FECHA", "HORA", "TURNO", "SERVICIO", "PRESTADOR", "NOMBRE", "TUTOR",
   "PACIENTE", "FIRMA"]

/-- `header_hits`: number of header keywords present in `t`. -/
def headerHits (t : String) : Nat :=
  (headerKeys.filter (fun k => containsSub t k)).length

/-- `has_cuidador` of `_has_crc_table_hint`. -/
def hasCuidadorT (t : String) : Bool :=
  containsSub t "ATENCION CUIDADOR" || containsSub t "CUIDADOR"

/-- The rich header pattern of `_has_crc_table_hint` (the big `if` that
returns `True` directly; note it carries no `FECHA CREACION` guard). -/
def crcRichHeader (t : String) : Bool :=
  containsSub t "SERVICIO" && containsSub t "PRESTADOR" &&
  (containsSub t "TURNO" && (containsSub t "HORA" || containsSub t "HORARIO")) &&
  (containsSub t "NOMBRE" && (containsSub t "TUTOR" || containsSub t "PACIENTE")) &&
  containsSub t "FIRMA" &&
  (containsSub t "N." || containsSub t "N°" || containsSub t "NO." ||
    containsSub t "NRO") &&
  (containsSub t "ATENCION CUIDADOR" || containsSub t "CUIDADOR")

/-- `fallback_rows` of `_has_crc_table_hint`. -/
def crcFallbackRows (t : String) : Bool :=
  hasCuidadorT t && decide (2 ≤ countDates none t.data) &&
  decide (2 ≤ countTimes none t.data) && !(containsSub t "FECHA CREACION")

/-- `fallback_headers` of `_has_crc_table_hint`. -/
def crcFallbackHeaders (t : String) : Bool :=
  hasCuidadorT t && decide (5 ≤ headerHits t) && !(containsSub t "FECHA CREACION")

/-- `_has_crc_table_hint`. -/
def has_crc_table_hint (text : String) : Bool :=
  if text = "" then false
  else
    let t := normalize_ocr_text text
    crcRichHeader t || crcFallbackHeaders t || crcFallbackRows t

/-- `_has_opf_table_hint`. -/
def has_opf_table_hint (text : String) : Bool :=
  if text = "" then false
  else
    let t := normalize_ocr_text text
    (containsSub t "DECISION" || containsSub t "DECISIONES") &&
    (containsSub t "MES INICIO" || containsSub t "MES" ||
      containsSub t "DETALLES" || containsSub t "OBSERVACIONES")

/-- The body of `_classify_text` up to (and excluding) the final
`_has_crc_table_hint` branch, on the already-normalised text `t`. -/
def classifyStrongT (t : String) : Option Cat :=
  let hasHevHint :=
    containsSub t "REGISTRO DE ACTIVIDADES DE CUIDADO" ||
    containsSub t "REGISTRO DE ACTIVIDADES DE CUIDADOR" ||
    containsSub t "HISTORIA CLINICA" ||
    containsSub t "HISTORIA CLÍNICA" ||
    containsSub t "TRABAJO SOCIAL"
  let hasOpfPhrase := containsSub t "ORDEN MEDICA" || containsSub t "ORDEN MÉDICA"
  let hasOpfHeader := hasOpfPhrase && (containsSub t "DECISIONES" || containsSub t "DECISION")
  if hasOpfHeader then some Cat.OPF
  else if hasHevHint then some Cat.HEV
  else if hasOpfPhrase then some Cat.OPF
  else if has_opf_table_hint t then some Cat.OPF
  else rulesMatch AUTO_RULES_STRONG t

/-- `_classify_text`.  NOTE: exactly as in the source, the
`allow_crc_table` parameter is accepted but never read — the CRC table
heuristic runs unconditionally. -/
def classify_text (text : String) (allow_crc_table : Bool) : Option Cat :=
  if text = "" then none
  else
    let t := normalize_ocr_text text
    match classifyStrongT t with
    | some c => some c
    | none => if has_crc_table_hint t then some Cat.CRC else none

/-- The classifier with the CRC table heuristic disabled — this is what
the specification describes as classifying "without table heuristics"
(`allowCrcTable = false`); stated for comparison with `classify_text`. -/
def classifyWithoutCrcTable (text : String) : Option Cat :=
  if text = "" then none
  else classifyStrongT (normalize_ocr_text text)

-- ===================================================================
-- Tiered text extraction (`_page_text_for_classification`)
-- ===================================================================

/-- Default of `TIPIFICADOR_OCR_MIN_TEXT_LEN`. -/
def OCR_MIN_TEXT_LEN : Nat := 40

/-- `_text_is_useful`. -/
def text_is_useful (text : String) : Bool :=
  !(text = "") && decide (OCR_MIN_TEXT_LEN ≤ (pyStripL text.data).length)

/-- Which control-flow path of `_page_text_for_classification` produced
the returned text.  `embedded1` is the first return (no OCR run at all);
`headerOcr1` / `embeddedFallback` are the returns inside the
useful-embedded-text branch after running header OCR; `headerOcr2` and
`fullOcr` are the returns of the not-useful branch. -/
inductive TextTier
  | embedded1
  | headerOcr1
  | embeddedFallback
  | headerOcr2
  | fullOcr
deriving DecidableEq

/-- `_page_text_for_classification`, parameterised by the embedded text
and the header/full OCR outputs for the page (the cancel predicate is
omitted: no claim concerns cancellation).  Returns the chosen text
together with the path that produced it. -/
def page_text_for_classification (emb headText fullText : String) :
    String × TextTier :=
  if text_is_useful emb then
    if (classify_text emb true).isSome then (emb, TextTier.embedded1)
    else if (classify_text headText false).isSome then (headText, TextTier.headerOcr1)
    else (emb, TextTier.embeddedFallback)
  else if (classify_text headText false).isSome then (headText, TextTier.headerOcr2)
  else (fullText, TextTier.fullOcr)

-- ===================================================================
-- Auto-classify (`_auto_classify_internal`)
-- ===================================================================

/-- First pass of `_auto_classify_internal`: strong classification of
page `i` (`_classify_text(texts[i], allow_crc_table=False)`). -/
def strong_of (texts : Nat → String) (i : Nat) : Option Cat :=
  classify_text (texts i) false

/-- Owning source PDF of global page `g` (`page_map[g][0]`). -/
def pdf_of (pageMap : List (Nat × Nat)) (g : Nat) : Nat :=
  (pageMap.getD g (0, 0)).1

/-- The global pages of one source PDF, in global order (the `per_pdf`
grouping of the source, built by one pass over `enumerate(page_map)`). -/
def pages_of_pdf (pageMap : List (Nat × Nat)) (pdfIdx : Nat) : List Nat :=
  (List.range pageMap.length).filter (fun g => pdf_of pageMap g == pdfIdx)

/-- `crc_pdf[pdf_idx]`: does the PDF own a page with a strong CRC hit? -/
def crc_pdf_flag (pageMap : List (Nat × Nat)) (texts : Nat → String)
    (pdfIdx : Nat) : Bool :=
  (pages_of_pdf pageMap pdfIdx).any (fun p => strong_of texts p == some Cat.CRC)

/-- The `strong_hits` set of a PDF in the propagation pass, as a
duplicate-free list (Python builds a `set`). -/
def strong_hits_of_pdf (pageMap : List (Nat × Nat)) (texts : Nat → String)
    (pdfIdx : Nat) : List Cat :=
  ((pages_of_pdf pageMap pdfIdx).filterMap (strong_of texts)).dedup

/-- The category the propagation pass writes onto the non-strong pages of
a PDF, when any: the unique strong hit, provided it lies in
`{FEV, CRC, PDE}` (`len(strong_hits) == 1 and chosen in {...}`). -/
def propagation_for (pageMap : List (Nat × Nat)) (texts : Nat → String)
    (pdfIdx : Nat) : Option Cat :=
  match strong_hits_of_pdf pageMap texts pdfIdx with
  | [c] => if c = Cat.FEV ∨ c = Cat.CRC ∨ c = Cat.PDE then some c else none
  | _ => none

/-- Final value the classification dict holds for page `i` after both
passes of `_auto_classify_internal`: a strong page keeps its strong hit
(the propagation loop skips it), a non-strong page in a PDF with a
unique `{FEV, CRC, PDE}` strong hit receives that hit (overwriting its
second-pass value), and otherwise the page keeps its second-pass value
`_classify_text(texts[i], allow_crc_table=crc_pdf[pdf_idx]) or "HEV"`. -/
def auto_classify_val (pageMap : List (Nat × Nat)) (texts : Nat → String)
    (i : Nat) : Cat :=
  match strong_of texts i with
  | some c => c
  | none =>
    match propagation_for pageMap texts (pdf_of pageMap i) with
    | some c => c
    | none =>
      (classify_text (texts i) (crc_pdf_flag pageMap texts (pdf_of pageMap i))).getD
        Cat.HEV

/-- `_auto_classify_internal`: the returned dict, as its association list
in insertion order — the second pass inserts the keys `str(0)`,
`str(1)`, ... in order and the propagation pass only updates values of
existing keys.  `texts` abstracts `_page_text_for_classification` for
each page. -/
def auto_classify_internal (pageMap : List (Nat × Nat))
    (texts : Nat → String) : List (String × Cat) :=
  (List.range pageMap.length).map
    (fun i => (toString i, auto_classify_val pageMap texts i))

-- ===================================================================
-- NIT and invoice-code normalisation
-- ===================================================================

/-- `_normalize_nit`: strip and uppercase, remove dots / commas /
spaces, keep only the part before a hyphen, then keep only digits. -/
def normalize_nit (nit_raw : String) : String :=
  let s1 := (pyStripL nit_raw.data).map asciiUpper
  let s2 := s1.filter (fun c => decide (c ≠ '.' ∧ c ≠ ',' ∧ c ≠ ' '))
  let s3 := s2.takeWhile (fun c => decide (c ≠ '-'))
  String.mk (s3.filter isDigitC)

/-- Length of the maximal run of characters satisfying `p` at the head
of the list. -/
def runLen (p : Char → Bool) : List Char → Nat
  | [] => 0
  | c :: rest => if p c then 1 + runLen p rest else 0

/-- Attempt of `\b([A-Z]{3,6})\s*(\d{3,})\b` at the current position
(the word boundary before the position is checked by the caller).  The
regex engine's backtracking collapses here: only the full leading
letter run can be the group-1 match (a shorter take leaves a letter that
neither `\s*` nor `\d` accepts), `\s*` must take the whole whitespace
run, `\d{3,}` must take the whole digit run, and the trailing `\b`
holds iff the character after the digit run is absent or not a word
character. -/
def invMatchAt (l : List Char) : Option (List Char × List Char) :=
  let r := runLen isUpperC l
  if 3 ≤ r ∧ r ≤ 6 then
    let rest1 := l.drop r
    let rest2 := rest1.drop (runLen pyWs rest1)
    let d := runLen isDigitC rest2
    if 3 ≤ d ∧ boundaryB ((rest2.drop d).head?) = true then
      some (l.take r, rest2.take d)
    else none
  else none

/-- `re.search` for `\b([A-Z]{3,6})\s*(\d{3,})\b`: leftmost position
with a word boundary where the pattern matches; `prev` is the character
before the current position. -/
def invSearch : Option Char → List Char → Option (List Char × List Char)
  | _, [] => none
  | prev, c :: rest =>
    if boundaryB prev then
      match invMatchAt (c :: rest) with
      | some res => some res
      | none => invSearch (some c) rest
    else invSearch (some c) rest

/-- `_normalize_invoice_code`: strip + uppercase + remove spaces; a
purely-digit input becomes `OCFE<digits>`; otherwise search
`\b([A-Z]{3,6})\s*(\d{3,})\b` and reject the prefixes `NIT` and `CUDE`
(note: the source does NOT reject `CUFE`). -/
def normalize_invoice_code (code_raw : String) : Option String :=
  let s := ((pyStripL code_raw.data).map asciiUpper).filter (fun c => decide (c ≠ ' '))
  if s = [] then none
  else if s.all isDigitC then some ("OCFE" ++ String.mk s)
  else
    match invSearch none s with
    | none => none
    | some (pfx, ds) =>
      if String.mk pfx = "NIT" ∨ String.mk pfx = "CUDE" then none
      else
        let digits := ds.filter isDigitC
        if digits = [] then none else some (String.mk pfx ++ String.mk digits)

-- ===================================================================
-- FECHA DE CREACION extraction (`_extract_fecha_creacion`)
-- ===================================================================

/-- Case folding for the case-insensitive `_FECHA_CREACION_RE` match:
ASCII uppercase plus the accented letter appearing in the pattern. -/
def foldCase (c : Char) : Char :=
  if c = 'ó' then 'Ó' else asciiUpper c

/-- Case-insensitive literal match: consume `pat` from the front of the
input, returning the rest. -/
def matchLitCI : List Char → List Char → Option (List Char)
  | [], l => some l
  | _ :: _, [] => none
  | p :: ps, c :: cs => if foldCase p = foldCase c then matchLitCI ps cs else none

/-- Read exactly `n` digits, returning their value and the rest. -/
def matchNDigits (n : Nat) (l : List Char) : Option (Nat × List Char) :=
  let d := l.take n
  if d.length = n ∧ d.all isDigitC = true then
    some (d.foldl (fun a c => a * 10 + (c.toNat - 48)) 0, l.drop n)
  else none

/-- Attempt of `FECHA\s*DE\s*CREA(?:CION|CIÓN)\s*[:\-]?\s*(\d{2}/\d{2}/\d{4})`
(case-insensitive) at the current position; returns the captured
`(day, month, year)`.  Greedy `\s*` runs and the greedy optional
`[:\-]?` are exact here because no whitespace character can begin the
literal or digit that follows. -/
def fechaAt (l : List Char) : Option (Nat × Nat × Nat) :=
  match matchLitCI "FECHA".data l with
  | none => none
  | some l1 =>
    match matchLitCI "DE".data (l1.dropWhile pyWs) with
    | none => none
    | some l3 =>
      match matchLitCI "CREA".data (l3.dropWhile pyWs) with
      | none => none
      | some l5 =>
        match (matchLitCI "CION".data l5).orElse (fun _ => matchLitCI "CIÓN".data l5) with
        | none => none
        | some l6 =>
          let l7 := l6.dropWhile pyWs
          let l8 := match l7 with
            | c :: rest => if c = ':' ∨ c = '-' then rest else l7
            | [] => l7
          let l9 := l8.dropWhile pyWs
          match matchNDigits 2 l9 with
          | none => none
          | some (d, r1) =>
            match r1 with
            | '/' :: r2 =>
              match matchNDigits 2 r2 with
              | none => none
              | some (m, r3) =>
                match r3 with
                | '/' :: r4 =>
                  match matchNDigits 4 r4 with
                  | none => none
                  | some (y, _) => some (d, m, y)
                | _ => none
            | _ => none

/-- `_FECHA_CREACION_RE.search`: leftmost match. -/
def fechaSearch : List Char → Option (Nat × Nat × Nat)
  | [] => none
  | c :: rest =>
    match fechaAt (c :: rest) with
    | some r => some r
    | none => fechaSearch rest

/-- Day count of a month (`datetime.strptime` calendar validation). -/
def daysInMonth (y m : Nat) : Nat :=
  if m = 1 ∨ m = 3 ∨ m = 5 ∨ m = 7 ∨ m = 8 ∨ m = 10 ∨ m = 12 then 31
  else if m = 4 ∨ m = 6 ∨ m = 9 ∨ m = 11 then 30
  else if m = 2 then (if y % 4 = 0 ∧ (y % 100 ≠ 0 ∨ y % 400 = 0) then 29 else 28)
  else 0

/-- Encoding of `datetime.max`'s date (9999-12-31). -/
def DATE_MAX_ENC : Nat := 99991231

/-- `datetime.strptime(s, "%d/%m/%Y")` on already-split fields: validate
the calendar date (year ≥ 1 as in `datetime.MINYEAR`) and encode it as
`y * 10000 + m * 100 + d`, which orders exactly like `datetime`. -/
def strptimeDMY (d m y : Nat) : Option Nat :=
  if 1 ≤ y ∧ 1 ≤ m ∧ m ≤ 12 ∧ 1 ≤ d ∧ d ≤ daysInMonth y m then
    some (y * 10000 + m * 100 + d)
  else none

/-- `_extract_fecha_creacion`. -/
def extract_fecha_creacion (text : String) : Option Nat :=
  if text = "" then none
  else
    match fechaSearch text.data with
    | none => none
    | some (d, m, y) => strptimeDMY d m y

/-- `_get_fecha_creacion_for_page`: embedded text first, then the cached
header-OCR text, then the cached full-OCR text (a missing cache file
contributes the empty string, as in `text or ""`). -/
def get_fecha_creacion_for_page (embText : Nat → String)
    (headCache fullCache : Nat → Option String) (idx : Nat) : Option Nat :=
  match extract_fecha_creacion (embText idx) with
  | some d => some d
  | none =>
    match extract_fecha_creacion ((headCache idx).getD "") with
    | some d => some d
    | none => extract_fecha_creacion ((fullCache idx).getD "")

-- ===================================================================
-- HEV date sort and the process endpoint (`_process_job_bytes`)
-- ===================================================================

/-- Lexicographic order on the sort keys `(flag, date, idx)` used for the
HEV pages — Python's tuple comparison. -/
def hevLe (a b : Nat × Nat × Nat) : Prop :=
  a.1 < b.1 ∨ (a.1 = b.1 ∧ (a.2.1 < b.2.1 ∨ (a.2.1 = b.2.1 ∧ a.2.2 ≤ b.2.2)))

instance hevLeDecidable : DecidableRel hevLe := by
  intro a b
  unfold hevLe
  infer_instance

instance hevLeIsTotal : IsTotal (Nat × Nat × Nat) hevLe := by
  constructor
  intro a b
  obtain ⟨a1, a2, a3⟩ := a
  obtain ⟨b1, b2, b3⟩ := b
  unfold hevLe
  simp only []
  omega

instance hevLeIsTrans : IsTrans (Nat × Nat × Nat) hevLe := by
  constructor
  intro a b c hab hbc
  obtain ⟨a1, a2, a3⟩ := a
  obtain ⟨b1, b2, b3⟩ := b
  obtain ⟨c1, c2, c3⟩ := c
  unfold hevLe at hab hbc ⊢
  simp only [] at hab hbc ⊢
  omega

/-- The sort key `(1 if fecha is None else 0, fecha or datetime.max, idx)`
of the HEV branch of `_process_job_bytes`. -/
def hevKey (fecha : Nat → Option Nat) (idx : Nat) : Nat × Nat × Nat :=
  match fecha idx with
  | none => (1, DATE_MAX_ENC, idx)
  | some d => (0, d, idx)

/-- `pages = [k[2] for k in sorted(keyed)]` of the HEV branch.  Python's
`sorted` is a stable sort by the tuple order; since the key contains the
page index, any sorting algorithm agreeing with `hevLe` produces the
same list, and insertion sort is also stable. -/
def hevSortPages (pages : List Nat) (fecha : Nat → Option Nat) : List Nat :=
  ((pages.map (hevKey fecha)).insertionSort hevLe).map (fun k => k.2.2)

/-- CPython `int(str)` digit parsing after the first digit: single
underscores are allowed between digits. -/
def parseDigitsU : List Char → Nat → Option Nat
  | [], acc => some acc
  | ['_'], _ => none
  | '_' :: c :: rest, acc =>
    if isDigitC c then parseDigitsU rest (acc * 10 + (c.toNat - 48)) else none
  | c :: rest, acc =>
    if isDigitC c then parseDigitsU rest (acc * 10 + (c.toNat - 48)) else none

/-- Parse a nonempty digit sequence (with `_` separators). -/
def parseFirst : List Char → Option Nat
  | [] => none
  | c :: rest => if isDigitC c then parseDigitsU rest (c.toNat - 48) else none

/-- CPython `int(k)` for base 10 (ASCII model): surrounding whitespace,
an optional sign, then digits with optional single `_` separators. -/
def pyIntParse (s : String) : Option Int :=
  match pyStripL s.data with
  | '+' :: rest => (parseFirst rest).map (fun n => (n : Int))
  | '-' :: rest => (parseFirst rest).map (fun n => -(n : Int))
  | rest => (parseFirst rest).map (fun n => (n : Int))

/-- The per-entry filter of `_process_job_bytes`: `int(k)` must parse
(else `continue`) and the index must lie in `[0, total)`. -/
def validKeyIdx (total : Nat) (k : String) : Option Nat :=
  match pyIntParse k with
  | none => none
  | some i => if i < 0 ∨ (total : Int) ≤ i then none else some i.toNat

/-- Does the process endpoint keep this classification entry?  (Key
parses, index in range, value not null.) -/
def validEntry (total : Nat) (kv : String × Option Cat) : Bool :=
  match validKeyIdx total kv.1 with
  | none => false
  | some _ => kv.2.isSome

/-- `pages_by_cat[cat]` after the parsing loop of `_process_job_bytes`:
the kept indices whose value is `cat`, in dict insertion order (the
loop appends at the end of `pages_by_cat[v]`, so recursing on the
entry list in order reproduces the same list). -/
def pages_by_cat (total : Nat) (cls : List (String × Option Cat)) (c : Cat) :
    List Nat :=
  match cls with
  | [] => []
  | kv :: rest =>
    match validKeyIdx total kv.1 with
    | none => pages_by_cat total rest c
    | some idx =>
      match kv.2 with
      | none => pages_by_cat total rest c
      | some cat =>
        if cat = c then idx :: pages_by_cat total rest c
        else pages_by_cat total rest c

/-- Errors `_process_job_bytes` can raise. -/
inductive ProcErr
  | fevRequired
  | unresolvedMeta (nitDetected ocfeDetected : Option String)
deriving DecidableEq

/-- Python truthiness of an optional string (`None` and `""` are falsy). -/
def truthyS : Option String → Bool
  | none => false
  | some s => !(s = "")

/-- `_process_job_bytes`.  `total` and `cls` are the job's page count and
the request's classification dict; `docDetect` / `textDetect` are the
results of the positional extractor `_extract_nit_invoice_from_doc` and
the text fallback `_extract_nit_invoice_from_text` (both driven by the
external PdfEngine); `embText` / `headCache` / `fullCache` feed the HEV
date lookup.  The archive is modelled as the list of produced file names
with the global page list each one concatenates. -/
def process_job_bytes (total : Nat) (cls : List (String × Option Cat))
    (nitOverride ocfeOverride : Option String)
    (docDetect textDetect : Option String × Option String)
    (embText : Nat → String) (headCache fullCache : Nat → Option String) :
    Except ProcErr (String × List (String × List Nat)) :=
  if (pages_by_cat total cls Cat.FEV).length = 0 then
    Except.error ProcErr.fevRequired
  else
    let nit0 : Option String :=
      if truthyS nitOverride then some (normalize_nit (nitOverride.getD "")) else none
    let ocfe0 : Option String :=
      if truthyS ocfeOverride then normalize_invoice_code (ocfeOverride.getD "") else none
    let detected : Option String × Option String :=
      if !(truthyS nit0) || !(truthyS ocfe0) then
        let nd := docDetect.1
        let od := docDetect.2
        if !(truthyS nd) || !(truthyS od) then
          ((if truthyS nd then nd else textDetect.1),
           (if truthyS od then od else textDetect.2))
        else (nd, od)
      else (none, none)
    let nit := if truthyS nit0 then nit0 else detected.1
    let ocfe := if truthyS ocfe0 then ocfe0 else detected.2
    if !(truthyS nit) || !(truthyS ocfe) then
      Except.error (ProcErr.unresolvedMeta nit ocfe)
    else
      let nitS := nit.getD ""
      let ocfeS := ocfe.getD ""
      let fecha := get_fecha_creacion_for_page embText headCache fullCache
      let files := CATEGORIES.foldl (fun acc cat =>
        let pages := pages_by_cat total cls cat
        if pages = [] then acc
        else
          let pages2 := if cat = Cat.HEV then hevSortPages pages fecha else pages
          acc ++ [(catName cat ++ "_" ++ nitS ++ "_" ++ ocfeS ++ ".pdf", pages2)]) []
      Except.ok (ocfeS ++ ".zip", files)

-- ===================================================================
-- Scratch-store metadata writes (`_save_meta`, `_save_batch_meta`)
-- ===================================================================

/-- Primitive file-system steps the two metadata writers perform.
`truncateTarget` is `open(path, "w")` (the target is truncated on open),
`appendTarget` is the subsequent `json.dump` write, `writeTmp` writes
the sibling `meta.json.tmp`, `fsyncTmp` is `os.fsync`, and
`renameTmpToTarget` is `os.replace(tmp_path, path)`. -/
inductive FsOp
  | truncateTarget
  | appendTarget (data : String)
  | writeTmp (data : String)
  | fsyncTmp
  | renameTmpToTarget
deriving DecidableEq

/-- Contents of the target meta file and of its sibling temp file
(`none` = file absent). -/
structure FsState where
  target : Option String
  tmp : Option String
deriving DecidableEq

/-- Effect of one step. -/
def applyOp (st : FsState) (op : FsOp) : FsState :=
  match op with
  | FsOp.truncateTarget => { st with target := some "" }
  | FsOp.appendTarget d => { st with target := some ((st.target.getD "") ++ d) }
  | FsOp.writeTmp d => { st with tmp := some d }
  | FsOp.fsyncTmp => st
  | FsOp.renameTmpToTarget => { target := st.tmp, tmp := none }

/-- Run a step list. -/
def runOps (st : FsState) (ops : List FsOp) : FsState :=
  ops.foldl applyOp st

/-- State after a crash that interrupts the writer after its first `k`
steps. -/
def crashAfter (st : FsState) (ops : List FsOp) (k : Nat) : FsState :=
  runOps st (ops.take k)

/-- `_save_meta` (job metadata): a plain in-place overwrite —
`open(path, "w")` truncates the target, then `json.dump` writes it. -/
def save_meta_ops (data : String) : List FsOp :=
  [FsOp.truncateTarget, FsOp.appendTarget data]

/-- `_save_batch_meta` (batch metadata): write the sibling temp file,
`fsync` it, then `os.replace` it over the target. -/
def save_batch_meta_ops (data : String) : List FsOp :=
  [FsOp.writeTmp data, FsOp.fsyncTmp, FsOp.renameTmpToTarget]

-- ===================================================================
-- Batch creation and retry (`create_batch`, `_build_batch_from_zip`,
-- `retry_batch_errors`)
-- ===================================================================

/-- One package record of the batch metadata. -/
structure BatchPkg where
  name : String
  folder : String
  status : String
  jobId : Option String
  resultFile : Option String
  downloadName : Option String
  error : Option String
  gcsResult : Option String
deriving DecidableEq

/-- The batch metadata record. -/
structure BatchMeta where
  batchId : String
  status : String
  cancelRequested : Bool
  packages : List BatchPkg
  allZip : Option String
  gcsAllZip : Option String
  sourceGcsPath : Option String
deriving DecidableEq

/-- Default `TIPIFICADOR_MAX_BATCH_PACKAGES`. -/
def MAX_BATCH_PACKAGES : Nat := 10

/-- Default `TIPIFICADOR_MAX_BATCH_BYTES` (500 MB). -/
def MAX_BATCH_BYTES : Nat := 524288000

/-- Failure modes of batch admission.  `nameErrorReq` models the
`NameError` raised by evaluating the unbound name `req` in
`create_batch` (HTTP 500). -/
inductive BatchErr
  | badName
  | tooLarge
  | badZip
  | noPackages
  | tooManyPackages
  | nameErrorReq
deriving DecidableEq

/-- `_build_batch_from_zip` after a successful extraction, given the
top-level directory names of the extracted input directory: filter the
`__`-prefixed names, require 1..`MAX_BATCH_PACKAGES` packages, sort the
folder names, and persist a `ready` metadata record. -/
def build_batch_from_zip (batchId : String) (dirNames : List String) :
    Except BatchErr BatchMeta :=
  let pkgFolders := dirNames.filter (fun n => !(pyStartsWith n "__"))
  if pkgFolders = [] then Except.error BatchErr.noPackages
  else if MAX_BATCH_PACKAGES < pkgFolders.length then
    Except.error BatchErr.tooManyPackages
  else
    let sortedFolders := pkgFolders.insertionSort (fun a b => a ≤ b)
    Except.ok
      { batchId := batchId
        status := "ready"
        cancelRequested := false
        packages := sortedFolders.map (fun folder =>
          { name := folder
            folder := folder
            status := "pending"
            jobId := none
            resultFile := none
            downloadName := none
            error := none
            gcsResult := none })
        allZip := none
        gcsAllZip := none
        sourceGcsPath := none }

/-- The multipart upload of `POST /batch` as the model sees it. -/
structure UploadZip where
  filename : String
  size : Nat
deriving DecidableEq

/-- `create_batch` (`POST /batch`).  After the filename check and the
size-limited save, the source evaluates the argument `req.gcsPath` of
its `_build_batch_from_zip` call — but no `req` is bound in
`create_batch`, so a `NameError` is raised before `_build_batch_from_zip`
can run. -/
def create_batch (file : UploadZip) : Except BatchErr BatchMeta :=
  if !(pyEndsWith (String.mk (file.filename.data.map asciiLower)) ".zip") then
    Except.error BatchErr.badName
  else if MAX_BATCH_BYTES < file.size then Except.error BatchErr.tooLarge
  else Except.error BatchErr.nameErrorReq

/-- `retry_batch_errors` (`POST /batch/{id}/retry-errors`): collect the
names of the error packages; if none, answer `retried: 0` without
saving or spawning; else reset the status, save, and spawn the worker
over those names.  The result is `(new meta, saved-and-spawned flag,
retried count)`. -/
def retry_batch_errors (meta : BatchMeta) : BatchMeta × Bool × Nat :=
  let errorPkgs := (meta.packages.filter (fun p => p.status = "error")).map
    (fun p => p.name)
  if errorPkgs = [] then (meta, false, 0)
  else
    ({ meta with status := "processing", cancelRequested := false },
     true, errorPkgs.length)

-- ===================================================================
-- Helper lemmas
-- ===================================================================

/-- A decimal digit is not whitespace. -/
theorem hl_digit_not_ws {c : Char} (h : isDigitC c = true) : pyWs c = false := by
  simp only [isDigitC, decide_eq_true_eq] at h
  simp only [pyWs, decide_eq_false_iff_not]
  omega

/-- A decimal digit is not an uppercase letter. -/
theorem hl_digit_not_upper {c : Char} (h : isDigitC c = true) : isUpperC c = false := by
  simp only [isDigitC, decide_eq_true_eq] at h
  simp only [isUpperC, decide_eq_false_iff_not]
  omega

/-- A decimal digit is not a lowercase letter. -/
theorem hl_digit_not_lower {c : Char} (h : isDigitC c = true) : isLowerC c = false := by
  simp only [isDigitC, decide_eq_true_eq] at h
  simp only [isLowerC, decide_eq_false_iff_not]
  omega

/-- A decimal digit is a word character. -/
theorem hl_digit_word {c : Char} (h : isDigitC c = true) : isWordC c = true := by
  simp [isWordC, h]

/-- A decimal digit is not the space character. -/
theorem hl_digit_ne_space {c : Char} (h : isDigitC c = true) : c ≠ ' ' := by
  intro heq
  subst heq
  exact absurd h (by decide)

/-- `asciiUpper` fixes decimal digits. -/
theorem hl_asciiUpper_digit {c : Char} (h : isDigitC c = true) : asciiUpper c = c := by
  simp [asciiUpper, hl_digit_not_lower h]

/-- `dropWhile` is the identity when no element satisfies the predicate. -/
theorem hl_dropWhile_eq_self {p : Char → Bool} {l : List Char}
    (h : ∀ c ∈ l, p c = false) : l.dropWhile p = l := by
  cases l with
  | nil => rfl
  | cons c rest => simp [List.dropWhile_cons, h c (by simp)]

/-- `pyStripL` is the identity on whitespace-free lists. -/
theorem hl_pyStripL_eq_self {l : List Char} (h : ∀ c ∈ l, pyWs c = false) :
    pyStripL l = l := by
  unfold pyStripL
  rw [hl_dropWhile_eq_self h,
    hl_dropWhile_eq_self (fun c hc => h c (List.mem_reverse.mp hc)),
    List.reverse_reverse]

/-- `map` is the identity when the function fixes every element. -/
theorem hl_map_eq_self {f : Char → Char} {l : List Char}
    (h : ∀ c ∈ l, f c = c) : l.map f = l := by
  rw [show l.map f = l.map id from List.map_congr_left h, List.map_id]

/-- `runLen` of a uniformly satisfying list is its length. -/
theorem hl_runLen_all {p : Char → Bool} : ∀ {l : List Char},
    (∀ c ∈ l, p c = true) → runLen p l = l.length := by
  intro l
  induction l with
  | nil => intro _; rfl
  | cons c rest ih =>
    intro h
    simp [runLen, h c (by simp), ih (fun x hx => h x (by simp [hx]))]
    omega

/-- `runLen` of a list with no satisfying element is zero. -/
theorem hl_runLen_zero {p : Char → Bool} {l : List Char}
    (h : ∀ c ∈ l, p c = false) : runLen p l = 0 := by
  cases l with
  | nil => rfl
  | cons c rest => simp [runLen, h c (by simp)]

/-- `invSearch` finds nothing when the previous character and the whole
remaining text are word characters (no word boundary ever opens). -/
theorem hl_invSearch_word {l : List Char} {p : Char}
    (hp : isWordC p = true) (hl : ∀ c ∈ l, isWordC c = true) :
    invSearch (some p) l = none := by
  induction l generalizing p with
  | nil => rfl
  | cons c rest ih =>
    unfold invSearch
    simp only [boundaryB, hp, Bool.not_true, if_neg]
    rw [if_neg (by simp)]
    exact ih (hl c (by simp)) (fun x hx => hl x (by simp [hx]))

/-- `_classify_text` never reads its `allow_crc_table` flag. -/
theorem hl_classify_text_flag (t : String) (b b' : Bool) :
    classify_text t b = classify_text t b' := rfl

/-- `pages_by_cat` sees only the entries the parsing loop keeps: filtering
out the skipped entries first changes nothing. -/
theorem hl_pbc_filter (total : Nat) (c : Cat) :
    ∀ cls : List (String × Option Cat),
      pages_by_cat total cls c = pages_by_cat total (cls.filter (validEntry total)) c := by
  intro cls
  induction cls with
  | nil => rfl
  | cons kv rest ih =>
    cases hv : validKeyIdx total kv.1 with
    | none => simp [pages_by_cat, List.filter_cons, validEntry, hv, ih]
    | some idx =>
      cases hval : kv.2 with
      | none => simp [pages_by_cat, List.filter_cons, validEntry, hv, hval, ih]
      | some cat =>
        simp only [pages_by_cat, List.filter_cons, validEntry, hv, hval, Option.isSome_some,
          if_true]
        rw [ih]

/-- Emptiness of `pages_by_cat`: no kept entry carries the category. -/
theorem hl_pbc_empty_iff (total : Nat) (c : Cat) :
    ∀ cls : List (String × Option Cat),
      (pages_by_cat total cls c = [] ↔
        ∀ kv ∈ cls.filter (validEntry total), kv.2 ≠ some c) := by
  intro cls
  induction cls with
  | nil => simp [pages_by_cat]
  | cons kv rest ih =>
    cases hv : validKeyIdx total kv.1 with
    | none => simpa [pages_by_cat, List.filter_cons, validEntry, hv] using ih
    | some idx =>
      cases hval : kv.2 with
      | none => simpa [pages_by_cat, List.filter_cons, validEntry, hv, hval] using ih
      | some cat =>
        by_cases hcc : cat = c
        · subst hcc
          simp [pages_by_cat, List.filter_cons, validEntry, hv, hval]
        · simp [pages_by_cat, List.filter_cons, validEntry, hv, hval, hcc, ih,
            Ne.symm hcc]

-- ===================================================================
-- Claim theorems
-- ===================================================================

/-- C1: per-PDF propagation in auto-classify — when the set of strong
first-pass hits of a source PDF is exactly one category `c` drawn from
`{FEV, CRC, PDE}`, every page of that PDF ends in the returned map
classified as its own strong hit when it has one, and as `c` otherwise. -/
theorem c1_per_pdf_propagation (pageMap : List (Nat × Nat)) (texts : Nat → String)
    (pdfIdx : Nat) (c : Cat) (g : Nat)
    (hhits : strong_hits_of_pdf pageMap texts pdfIdx = [c])
    (hc : c = Cat.FEV ∨ c = Cat.CRC ∨ c = Cat.PDE)
    (hg : g ∈ pages_of_pdf pageMap pdfIdx) :
    (toString g, (strong_of texts g).getD c) ∈ auto_classify_internal pageMap texts := by
  have hg' := hg
  unfold pages_of_pdf at hg'
  have hgr : g ∈ List.range pageMap.length := (List.mem_filter.mp hg').1
  have hpdf : pdf_of pageMap g = pdfIdx := by
    have h2 := (List.mem_filter.mp hg').2
    simpa using h2
  have hprop : propagation_for pageMap texts pdfIdx = some c := by
    unfold propagation_for
    rw [hhits]
    simp [hc]
  have hval : auto_classify_val pageMap texts g = (strong_of texts g).getD c := by
    unfold auto_classify_val
    cases hs : strong_of texts g with
    | some s => simp
    | none => simp [hpdf, hprop]
  exact List.mem_map.mpr ⟨g, hgr, by rw [hval]⟩

/-- C1 witness: a two-page PDF whose first page carries the strong PDE
header and whose second page has empty text; the theorem applied at
page 1 puts the pair `("1", PDE)` in the returned map. -/
theorem c1_per_pdf_propagation_witness :
    (toString 1,
      (strong_of (fun n => if n = 0 then "AUTORIZACION SERVICIOS x" else "") 1).getD Cat.PDE) ∈
      auto_classify_internal [(0, 0), (0, 1)]
        (fun n => if n = 0 then "AUTORIZACION SERVICIOS x" else "") :=
  c1_per_pdf_propagation [(0, 0), (0, 1)]
    (fun n => if n = 0 then "AUTORIZACION SERVICIOS x" else "")
    0 Cat.PDE 1 (by decide) (by decide) (by decide)

/-- C2 (counterexample): an embedded text that is useful by length and is
matched only by the CRC table heuristic (no strong rule fires) is
returned at tier 1 without running header OCR — against the claim that
tier 1 returns exactly when the classifier matches without table
heuristics, and that header OCR runs when no strong rule fires. -/
theorem c2_tier1_counterexample :
    page_text_for_classification
        "SERVICIO PRESTADOR TURNO HORA NOMBRE TUTOR FIRMA N. CUIDADOR" "" "" =
      ("SERVICIO PRESTADOR TURNO HORA NOMBRE TUTOR FIRMA N. CUIDADOR",
        TextTier.embedded1) ∧
    classifyWithoutCrcTable
        "SERVICIO PRESTADOR TURNO HORA NOMBRE TUTOR FIRMA N. CUIDADOR" = none ∧
    text_is_useful "SERVICIO PRESTADOR TURNO HORA NOMBRE TUTOR FIRMA N. CUIDADOR" = true :=
  ⟨by rfl, by rfl, by rfl⟩

/-- C2 (amended): tier 1 returns the embedded text exactly when it is
useful by length AND the classifier — which always includes the table
heuristics, the `allow_crc_table` flag being ignored — matches it; when
the embedded text is useful but the classifier does not match, header
OCR runs first and its text is returned if the classifier matches it,
else the embedded text is returned. -/
theorem c2_tier1_amended (emb headText fullText : String) :
    (page_text_for_classification emb headText fullText = (emb, TextTier.embedded1) ↔
      (text_is_useful emb = true ∧ (classify_text emb true).isSome = true)) ∧
    (text_is_useful emb = true → classify_text emb true = none →
      page_text_for_classification emb headText fullText =
        if (classify_text headText false).isSome then (headText, TextTier.headerOcr1)
        else (emb, TextTier.embeddedFallback)) := by
  constructor
  · constructor
    · intro h
      unfold page_text_for_classification at h
      split_ifs at h with h1 h2 h3 h4 <;> simp_all
    · rintro ⟨h1, h2⟩
      unfold page_text_for_classification
      simp [h1, h2]
  · intro h1 h2
    unfold page_text_for_classification
    simp [h1, h2]

/-- C2 witness for the amended theorem: a useful but unclassifiable
embedded text falls through to header OCR, whose strongly matching text
is returned. -/
theorem c2_tier1_amended_witness :
    page_text_for_classification
        "AAAA BBBB CCCC DDDD EEEE FFFF GGGG HHHH IIII" "ORDEN MEDICA" "" =
      ("ORDEN MEDICA", TextTier.headerOcr1) := by
  have h := (c2_tier1_amended "AAAA BBBB CCCC DDDD EEEE FFFF GGGG HHHH IIII"
    "ORDEN MEDICA" "").2 (by decide) (by rfl)
  rw [h]
  decide

/-- C4 (counterexample): a text whose normalised form contains
`FECHA CREACION` and matches the rich header pattern is still classified
CRC via the table heuristic (no strong rule fires on it) — the
`FECHA CREACION` guard does not protect the rich header branch. -/
theorem c4_crc_fecha_counterexample :
    classify_text
        "SERVICIO PRESTADOR TURNO HORA NOMBRE TUTOR FIRMA N. CUIDADOR FECHA CREACION"
        true = some Cat.CRC ∧
    classifyWithoutCrcTable
        "SERVICIO PRESTADOR TURNO HORA NOMBRE TUTOR FIRMA N. CUIDADOR FECHA CREACION" =
      none ∧
    containsSub
        (normalize_ocr_text
          "SERVICIO PRESTADOR TURNO HORA NOMBRE TUTOR FIRMA N. CUIDADOR FECHA CREACION")
        "FECHA CREACION" = true :=
  ⟨by rfl, by rfl, by rfl⟩

/-- C4 (amended): on a text containing `FECHA CREACION` the two fallback
branches of the CRC table heuristic are disabled, so the heuristic
reduces to the rich header pattern alone (which carries no such guard). -/
theorem c4_crc_fecha_amended (text : String)
    (h : containsSub (normalize_ocr_text text) "FECHA CREACION" = true) :
    has_crc_table_hint text =
      (!(text = "") && crcRichHeader (normalize_ocr_text text)) := by
  unfold has_crc_table_hint
  by_cases he : text = ""
  · simp [he]
  · simp [he, crcFallbackHeaders, crcFallbackRows, h]

/-- C4 witness: the amended theorem applied to a concrete text containing
`FECHA CREACION`. -/
theorem c4_crc_fecha_amended_witness :
    has_crc_table_hint "NOMBRE FECHA CREACION" =
      (!("NOMBRE FECHA CREACION" = "") &&
        crcRichHeader (normalize_ocr_text "NOMBRE FECHA CREACION")) :=
  c4_crc_fecha_amended "NOMBRE FECHA CREACION" (by decide)

/-- C5: the claim is right about the intended behaviour — and
`_build_batch_from_zip` does persist a `ready` record whose package
count is the number of non-`__` top-level folders — but `create_batch`
itself evaluates the unbound name `req` and so raises `NameError`
(HTTP 500) on every direct ZIP upload that passes the name and size
checks: the metadata is never returned to the caller. -/
theorem c5_create_batch_name_error :
    (∀ file : UploadZip,
      pyEndsWith (String.mk (file.filename.data.map asciiLower)) ".zip" = true →
      file.size ≤ MAX_BATCH_BYTES →
      create_batch file = Except.error BatchErr.nameErrorReq) ∧
    (∀ (batchId : String) (dirNames : List String),
      dirNames.filter (fun n => !(pyStartsWith n "__")) ≠ [] →
      (dirNames.filter (fun n => !(pyStartsWith n "__"))).length ≤ MAX_BATCH_PACKAGES →
      ∃ meta : BatchMeta,
        build_batch_from_zip batchId dirNames = Except.ok meta ∧
        meta.status = "ready" ∧
        meta.packages.length =
          (dirNames.filter (fun n => !(pyStartsWith n "__"))).length) := by
  constructor
  · intro f h1 h2
    unfold create_batch
    simp [h1, Nat.not_lt.mpr h2]
  · intro bid dn hne hle
    unfold build_batch_from_zip
    simp only [if_neg hne, if_neg (Nat.not_lt.mpr hle)]
    refine ⟨_, rfl, rfl, ?_⟩
    simp [List.length_insertionSort]

/-- C5 witness: a well-formed upload named `batch.zip` of 1000 bytes hits
the `NameError`, and a two-folder listing builds a two-package `ready`
batch. -/
theorem c5_create_batch_name_error_witness :
    create_batch ⟨"batch.zip", 1000⟩ = Except.error BatchErr.nameErrorReq ∧
    (∃ meta : BatchMeta,
      build_batch_from_zip "b1" ["pkg2", "pkg1", "__MACOSX"] = Except.ok meta ∧
      meta.status = "ready" ∧
      meta.packages.length =
        ((["pkg2", "pkg1", "__MACOSX"] : List String).filter
          (fun n => !(pyStartsWith n "__"))).length) :=
  ⟨c5_create_batch_name_error.1 ⟨"batch.zip", 1000⟩ (by decide) (by decide),
   c5_create_batch_name_error.2 "b1" ["pkg2", "pkg1", "__MACOSX"] (by decide) (by decide)⟩

/-- C6 (counterexample): the job-meta writer `_save_meta` does not write
a sibling temp file at all — it truncates the target in place and then
writes; a crash right after the truncating `open` leaves the target
empty, not the prior content. -/
theorem c6_job_meta_not_atomic_counterexample :
    save_meta_ops "new" = [FsOp.truncateTarget, FsOp.appendTarget "new"] ∧
    (crashAfter ⟨some "old", none⟩ (save_meta_ops "new") 1).target = some "" ∧
    some "" ≠ some "old" :=
  ⟨rfl, rfl, by decide⟩

/-- C6 (amended): only the BATCH meta writer is atomic: any crash before
its final rename leaves the prior target intact and the completed write
installs the new content; the JOB meta writer overwrites the target in
place, so a crash after its truncating `open` loses the prior meta. -/
theorem c6_meta_write_amended :
    (∀ (st : FsState) (data : String) (k : Nat), k ≤ 2 →
      (crashAfter st (save_batch_meta_ops data) k).target = st.target) ∧
    (∀ (st : FsState) (data : String),
      (runOps st (save_batch_meta_ops data)).target = some data) ∧
    (∀ (st : FsState) (data : String),
      (crashAfter st (save_meta_ops data) 1).target = some "") := by
  refine ⟨?_, ?_, ?_⟩
  · intro st data k hk
    interval_cases k <;> rfl
  · intro st data
    rfl
  · intro st data
    rfl

/-- C6 witness: the amended theorem applied at a concrete prior state. -/
theorem c6_meta_write_amended_witness :
    (crashAfter ⟨some "prior", none⟩ (save_batch_meta_ops "next") 2).target = some "prior" :=
  c6_meta_write_amended.1 ⟨some "prior", none⟩ "next" 2 (by decide)

/-- C7 (counterexample): in a two-page PDF whose first page is strong FEV
and whose second page has empty text (no rule fires for it), the
returned map classifies page 1 as FEV — propagation overrides the HEV
default, against the claim that HEV is assigned whenever no rule fires. -/
theorem c7_hev_default_counterexample :
    auto_classify_internal [(0, 0), (0, 1)]
        (fun n => if n = 0 then "FACTURA ELECTRONICA DE VENTA" else "") =
      [("0", Cat.FEV), ("1", Cat.FEV)] ∧
    classify_text ((fun n : Nat => if n = 0 then "FACTURA ELECTRONICA DE VENTA" else "") 1)
      true = none :=
  ⟨by rfl, by rfl⟩

/-- C7 (amended): the map returned by auto-classify has exactly the keys
`str(0) .. str(totalPages - 1)` in order, every value is one of the five
categories, and a page for which no rule fires is classified HEV
provided its source PDF does not trigger per-PDF propagation. -/
theorem c7_auto_classify_amended (pageMap : List (Nat × Nat)) (texts : Nat → String) :
    ((auto_classify_internal pageMap texts).map Prod.fst =
      (List.range pageMap.length).map toString) ∧
    (∀ kv ∈ auto_classify_internal pageMap texts,
      kv.2 = Cat.CRC ∨ kv.2 = Cat.FEV ∨ kv.2 = Cat.HEV ∨ kv.2 = Cat.OPF ∨
        kv.2 = Cat.PDE) ∧
    (∀ g, g < pageMap.length → classify_text (texts g) true = none →
      propagation_for pageMap texts (pdf_of pageMap g) = none →
      (toString g, Cat.HEV) ∈ auto_classify_internal pageMap texts) := by
  refine ⟨?_, ?_, ?_⟩
  · simp [auto_classify_internal, List.map_map, Function.comp]
  · intro kv hkv
    rcases List.mem_map.mp hkv with ⟨i, _, rfl⟩
    cases auto_classify_val pageMap texts i <;> simp
  · intro g hg hnone hprop
    have hs : strong_of texts g = none := hnone
    have hcrc : classify_text (texts g) (crc_pdf_flag pageMap texts (pdf_of pageMap g)) =
        none := hnone
    have hval : auto_classify_val pageMap texts g = Cat.HEV := by
      unfold auto_classify_val
      simp [hs, hprop, hcrc]
    exact List.mem_map.mpr ⟨g, List.mem_range.mpr hg, by rw [hval]⟩

/-- C7 witness for the amended theorem: a page outside every propagation
with unclassifiable text gets HEV. -/
theorem c7_auto_classify_amended_witness :
    (toString 1, Cat.HEV) ∈
      auto_classify_internal [(0, 0), (1, 0)]
        (fun n => if n = 0 then "FACTURA ELECTRONICA DE VENTA" else "") :=
  (c7_auto_classify_amended [(0, 0), (1, 0)]
    (fun n => if n = 0 then "FACTURA ELECTRONICA DE VENTA" else "")).2.2
    1 (by decide) (by rfl) (by decide)

/-- An uppercase letter is not whitespace. -/
theorem hl_upper_not_ws {c : Char} (h : isUpperC c = true) : pyWs c = false := by
  simp only [isUpperC, decide_eq_true_eq] at h
  simp only [pyWs, decide_eq_false_iff_not]
  omega

/-- An uppercase letter is not a lowercase letter. -/
theorem hl_upper_not_lower {c : Char} (h : isUpperC c = true) : isLowerC c = false := by
  simp only [isUpperC, decide_eq_true_eq] at h
  simp only [isLowerC, decide_eq_false_iff_not]
  omega

/-- An uppercase letter is not a decimal digit. -/
theorem hl_upper_not_digit {c : Char} (h : isUpperC c = true) : isDigitC c = false := by
  simp only [isUpperC, decide_eq_true_eq] at h
  simp only [isDigitC, decide_eq_false_iff_not]
  omega

/-- An uppercase letter is a word character. -/
theorem hl_upper_word {c : Char} (h : isUpperC c = true) : isWordC c = true := by
  simp [isWordC, h]

/-- An uppercase letter is not the space character. -/
theorem hl_upper_ne_space {c : Char} (h : isUpperC c = true) : c ≠ ' ' := by
  intro heq
  subst heq
  exact absurd h (by decide)

/-- `asciiUpper` fixes uppercase letters. -/
theorem hl_asciiUpper_upper {c : Char} (h : isUpperC c = true) : asciiUpper c = c := by
  simp [asciiUpper, hl_upper_not_lower h]

/-- `runLen` across an append whose left part satisfies `p` throughout. -/
theorem hl_runLen_append {p : Char → Bool} : ∀ (l1 l2 : List Char),
    (∀ c ∈ l1, p c = true) → runLen p (l1 ++ l2) = l1.length + runLen p l2 := by
  intro l1
  induction l1 with
  | nil => intro l2 _; simp
  | cons c rest ih =>
    intro l2 h
    rw [List.cons_append]
    simp only [runLen, h c (by simp), if_true, List.length_cons, List.append_eq]
    have h2 := ih l2 (fun x hx => h x (by simp [hx]))
    omega

/-- `invSearch` on an uppercase prefix of length 3..6 followed by a pure
digit tail: the invoice-code regex matches at position 0 iff the digit
tail has length at least 3, capturing the prefix and the digits. -/
theorem hl_invSearch_letters_digits (pfx ds : List Char)
    (hp3 : 3 ≤ pfx.length) (hp6 : pfx.length ≤ 6)
    (hpu : ∀ c ∈ pfx, isUpperC c = true) (hdd : ∀ c ∈ ds, isDigitC c = true) :
    invSearch none (pfx ++ ds) =
      if 3 ≤ ds.length then some (pfx, ds) else none := by
  have hmatch : invMatchAt (pfx ++ ds) =
      (if 3 ≤ ds.length then some (pfx, ds) else none) := by
    unfold invMatchAt
    have hrun : runLen isUpperC (pfx ++ ds) = pfx.length + runLen isUpperC ds :=
      hl_runLen_append pfx ds hpu
    have hrds : runLen isUpperC ds = 0 :=
      hl_runLen_zero (fun c hc => hl_digit_not_upper (hdd c hc))
    have hws : runLen pyWs ds = 0 :=
      hl_runLen_zero (fun c hc => hl_digit_not_ws (hdd c hc))
    have hdig : runLen isDigitC ds = ds.length := hl_runLen_all hdd
    rw [hrun, hrds]
    simp only [Nat.add_zero]
    rw [if_pos ⟨hp3, hp6⟩, List.drop_left, hws, List.drop_zero, hdig, List.drop_length]
    by_cases h3 : 3 ≤ ds.length
    · rw [if_pos ⟨h3, by rfl⟩, List.take_left, List.take_length, if_pos h3]
    · rw [if_neg (by simp [h3]), if_neg h3]
  obtain ⟨a, pfx', rfl⟩ : ∃ a pfx', pfx = a :: pfx' := by
    cases pfx with
    | nil => simp at hp3
    | cons a r => exact ⟨a, r, rfl⟩
  rw [List.cons_append]
  unfold invSearch
  simp only [boundaryB, if_true]
  rw [← List.cons_append, hmatch]
  by_cases h3 : 3 ≤ ds.length
  · simp [h3]
  · simp only [if_neg h3]
    show invSearch (some a) (pfx' ++ ds) = none
    exact hl_invSearch_word (hl_upper_word (hpu a (by simp)))
      (fun c hc => by
        rcases List.mem_append.mp hc with hc1 | hc2
        · exact hl_upper_word (hpu c (by simp [hc1]))
        · exact hl_digit_word (hdd c hc2))

/-- `_normalize_invoice_code` on an uppercase 3..6-letter prefix followed
by digits: the input passes the pre-processing untouched, the match
extracts prefix and digits when there are at least 3 digits, and the
prefixes NIT and CUDE are rejected. -/
theorem hl_nic_upper_digits (pfx ds : List Char)
    (hp3 : 3 ≤ pfx.length) (hp6 : pfx.length ≤ 6)
    (hpu : ∀ c ∈ pfx, isUpperC c = true) (hdd : ∀ c ∈ ds, isDigitC c = true) :
    normalize_invoice_code (String.mk (pfx ++ ds)) =
      (if 3 ≤ ds.length then
        (if String.mk pfx = "NIT" ∨ String.mk pfx = "CUDE" then none
         else some (String.mk pfx ++ String.mk ds))
       else none) := by
  have hboth : ∀ c ∈ pfx ++ ds, isUpperC c = true ∨ isDigitC c = true := by
    intro c hc
    rcases List.mem_append.mp hc with h | h
    · exact Or.inl (hpu c h)
    · exact Or.inr (hdd c h)
  have hpre : ((pyStripL (pfx ++ ds)).map asciiUpper).filter
      (fun c => decide (c ≠ ' ')) = pfx ++ ds := by
    rw [hl_pyStripL_eq_self (fun c hc => by
        rcases hboth c hc with h | h
        · exact hl_upper_not_ws h
        · exact hl_digit_not_ws h),
      hl_map_eq_self (fun c hc => by
        rcases hboth c hc with h | h
        · exact hl_asciiUpper_upper h
        · exact hl_asciiUpper_digit h),
      List.filter_eq_self.mpr (fun c hc => by
        rcases hboth c hc with h | h
        · simpa using hl_upper_ne_space h
        · simpa using hl_digit_ne_space h)]
  obtain ⟨a, pfx', hpfx⟩ : ∃ a pfx', pfx = a :: pfx' := by
    cases pfx with
    | nil => simp at hp3
    | cons a r => exact ⟨a, r, rfl⟩
  have hne : pfx ++ ds ≠ [] := by simp [hpfx]
  have hnall : (pfx ++ ds).all isDigitC = false := by
    rw [hpfx]
    simp [List.all_cons, hl_upper_not_digit (hpu a (by simp [hpfx]))]
  have hfd : ds.filter isDigitC = ds := List.filter_eq_self.mpr hdd
  unfold normalize_invoice_code
  simp only [hpre, if_neg hne, hnall, Bool.false_eq_true, if_false,
    hl_invSearch_letters_digits pfx ds hp3 hp6 hpu hdd]
  by_cases h3 : 3 ≤ ds.length
  · rw [if_pos h3, if_pos h3]
    by_cases hnit : String.mk pfx = "NIT" ∨ String.mk pfx = "CUDE"
    · simp [hnit]
    · have hds : ds ≠ [] := by
        intro hnil
        rw [hnil] at h3
        simp at h3
      simp [hnit, hfd, hds]
  · rw [if_neg h3, if_neg h3]

/-- C3 (counterexample): `normaliseInvoice("CUFE123")` is `"CUFE123"`,
not null — the source rejects only the prefixes NIT and CUDE, not CUFE. -/
theorem c3_invoice_cufe_counterexample :
    normalize_invoice_code "CUFE123" = some "CUFE123" := by rfl

/-- C3 (amended): `normaliseInvoice` uppercases and strips spaces; a
purely-digit input yields `OCFE` followed by those digits; an uppercase
prefix of 3-6 letters followed by 3 or more digits is extracted, with
exactly the prefixes NIT and CUDE rejected (CUFE is accepted); and the
three literal examples hold. -/
theorem c3_invoice_amended :
    (∀ s : String, s.data ≠ [] → s.data.all isDigitC = true →
      normalize_invoice_code s = some ("OCFE" ++ s)) ∧
    (∀ ds : List Char, ds.all isDigitC = true →
      normalize_invoice_code (String.mk ('N' :: 'I' :: 'T' :: ds)) = none) ∧
    (∀ ds : List Char, ds.all isDigitC = true →
      normalize_invoice_code (String.mk ('C' :: 'U' :: 'D' :: 'E' :: ds)) = none) ∧
    (∀ ds : List Char, ds.all isDigitC = true → 3 ≤ ds.length →
      normalize_invoice_code (String.mk ('C' :: 'U' :: 'F' :: 'E' :: ds)) =
        some (String.mk ('C' :: 'U' :: 'F' :: 'E' :: ds))) ∧
    normalize_invoice_code "OCFE 5871" = some "OCFE5871" ∧
    normalize_invoice_code "5871" = some "OCFE5871" ∧
    normalize_invoice_code "NIT900" = none := by
  refine ⟨?_, ?_, ?_, ?_, by rfl, by rfl, by rfl⟩
  · intro s hne hall
    have hd := List.all_eq_true.mp hall
    have hpre : ((pyStripL s.data).map asciiUpper).filter
        (fun c => decide (c ≠ ' ')) = s.data := by
      rw [hl_pyStripL_eq_self (fun c hc => hl_digit_not_ws (hd c hc)),
        hl_map_eq_self (fun c hc => hl_asciiUpper_digit (hd c hc)),
        List.filter_eq_self.mpr (fun c hc => by simpa using hl_digit_ne_space (hd c hc))]
    simp only [normalize_invoice_code]
    rw [hpre, if_neg hne, if_pos hall]
  · intro ds hall
    have hd := List.all_eq_true.mp hall
    have h := hl_nic_upper_digits ['N', 'I', 'T'] ds (by simp) (by simp)
      (by decide) hd
    rw [show ('N' :: 'I' :: 'T' :: ds) = ['N', 'I', 'T'] ++ ds from rfl, h]
    by_cases h3 : 3 ≤ ds.length
    · simp [h3]
    · simp [h3]
  · intro ds hall
    have hd := List.all_eq_true.mp hall
    have h := hl_nic_upper_digits ['C', 'U', 'D', 'E'] ds (by simp) (by simp)
      (by decide) hd
    rw [show ('C' :: 'U' :: 'D' :: 'E' :: ds) = ['C', 'U', 'D', 'E'] ++ ds from rfl, h]
    by_cases h3 : 3 ≤ ds.length
    · simp [h3]
    · simp [h3]
  · intro ds hall h3
    have hd := List.all_eq_true.mp hall
    have h := hl_nic_upper_digits ['C', 'U', 'F', 'E'] ds (by simp) (by simp)
      (by decide) hd
    rw [show ('C' :: 'U' :: 'F' :: 'E' :: ds) = ['C', 'U', 'F', 'E'] ++ ds from rfl, h,
      if_pos h3, if_neg (by decide)]
    rfl

/-- C3 witness: the amended theorem applied at concrete digit tails. -/
theorem c3_invoice_amended_witness :
    normalize_invoice_code "123456" = some "OCFE123456" ∧
    normalize_invoice_code (String.mk ['N', 'I', 'T', '9', '0', '0', '1']) = none ∧
    normalize_invoice_code (String.mk ['C', 'U', 'D', 'E', '8', '8', '8']) = none ∧
    normalize_invoice_code (String.mk ['C', 'U', 'F', 'E', '4', '5', '6']) =
      some (String.mk ['C', 'U', 'F', 'E', '4', '5', '6']) :=
  ⟨c3_invoice_amended.1 "123456" (by decide) (by decide),
   c3_invoice_amended.2.1 ['9', '0', '0', '1'] (by decide),
   c3_invoice_amended.2.2.1 ['8', '8', '8'] (by decide),
   c3_invoice_amended.2.2.2.1 ['4', '5', '6'] (by decide) (by decide)⟩

/-- C8: assembly orders the HEV pages by the keyed sort of the source —
the output is a permutation of the selected HEV pages, pairwise ordered
by the key (dated pages first in ascending date order, undated pages
last in ascending page order, ties broken by page order) — and the
literal scenario holds: four HEV pages carrying the dates 15/02/2024,
01/01/2024, none, 07/01/2024 in upload order are emitted in the order
[01/01/2024, 07/01/2024, 15/02/2024, undated] (pages [1, 3, 0, 2]). -/
theorem c8_hev_ordering :
    (∀ (pages : List Nat) (fecha : Nat → Option Nat),
      (hevSortPages pages fecha).Perm pages ∧
      (hevSortPages pages fecha).Pairwise
        (fun p q => hevLe (hevKey fecha p) (hevKey fecha q))) ∧
    process_job_bytes 5
        [("0", some Cat.HEV), ("1", some Cat.HEV), ("2", some Cat.HEV),
         ("3", some Cat.HEV), ("4", some Cat.FEV)]
        (some "900.204.617-5") (some "OCFE 5871") (none, none) (none, none)
        (fun n =>
          if n = 0 then "FECHA DE CREACION: 15/02/2024"
          else if n = 1 then "FECHA DE CREACION: 01/01/2024"
          else if n = 3 then "FECHA DE CREACION: 07/01/2024"
          else "sin datos")
        (fun _ => none) (fun _ => none) =
      Except.ok ("OCFE5871.zip",
        [("FEV_900204617_OCFE5871.pdf", [4]),
         ("HEV_900204617_OCFE5871.pdf", [1, 3, 0, 2])]) := by
  constructor
  · intro pages fecha
    have hproj : ∀ i : Nat, (hevKey fecha i).2.2 = i := by
      intro i
      unfold hevKey
      cases fecha i <;> rfl
    constructor
    · unfold hevSortPages
      have h1 := (List.perm_insertionSort hevLe (pages.map (hevKey fecha))).map
        (fun k : Nat × Nat × Nat => k.2.2)
      have h2 : (pages.map (hevKey fecha)).map (fun k : Nat × Nat × Nat => k.2.2) =
          pages := by
        rw [List.map_map,
          show pages.map ((fun k : Nat × Nat × Nat => k.2.2) ∘ hevKey fecha) =
            pages.map id from List.map_congr_left (fun a _ => hproj a),
          List.map_id]
      rw [h2] at h1
      exact h1
    · unfold hevSortPages
      rw [List.pairwise_map]
      have hsorted : List.Pairwise hevLe
          ((pages.map (hevKey fecha)).insertionSort hevLe) :=
        List.sorted_insertionSort hevLe (pages.map (hevKey fecha))
      refine hsorted.imp_of_mem ?_
      intro a b ha hb hab
      have hmem : ∀ x ∈ (pages.map (hevKey fecha)).insertionSort hevLe,
          hevKey fecha x.2.2 = x := by
        intro x hx
        rcases List.mem_map.mp
          ((List.perm_insertionSort hevLe (pages.map (hevKey fecha))).mem_iff.mp hx)
          with ⟨i, _, hi⟩
        rw [← hi, hproj]
      rw [hmem a ha, hmem b hb]
      exact hab
  · rfl

/-- Neither branch of the final metadata check of `_process_job_bytes`
can produce the `FevRequired` error. -/
theorem hl_ite_ne_fev (c : Prop) [Decidable c] (a b : Option String)
    (r : String × List (String × List Nat)) :
    (if c then Except.error (ProcErr.unresolvedMeta a b) else Except.ok r) ≠
      Except.error ProcErr.fevRequired := by
  by_cases h : c <;> simp [h]

/-- C9: the process endpoint sees only the classification entries whose
key parses as an in-range index with a non-null value, and it fails
`FevRequired` exactly when no kept entry is classified FEV; in the error
case the function returns no archive (its result is the error, not an
`ok`). -/
theorem c9_process_filtering_fev (total : Nat) (cls : List (String × Option Cat))
    (nitOverride ocfeOverride : Option String)
    (docDetect textDetect : Option String × Option String)
    (embText : Nat → String) (headCache fullCache : Nat → Option String) :
    (∀ c : Cat, pages_by_cat total cls c =
      pages_by_cat total (cls.filter (validEntry total)) c) ∧
    (process_job_bytes total cls nitOverride ocfeOverride docDetect textDetect
        embText headCache fullCache = Except.error ProcErr.fevRequired ↔
      ∀ kv ∈ cls.filter (validEntry total), kv.2 ≠ some Cat.FEV) := by
  refine ⟨fun c => hl_pbc_filter total c cls, ?_⟩
  by_cases hfev : (pages_by_cat total cls Cat.FEV).length = 0
  · have h1 : process_job_bytes total cls nitOverride ocfeOverride docDetect
        textDetect embText headCache fullCache = Except.error ProcErr.fevRequired := by
      unfold process_job_bytes
      rw [if_pos hfev]
    exact iff_of_true h1
      ((hl_pbc_empty_iff total Cat.FEV cls).mp (List.length_eq_zero.mp hfev))
  · have h2 : process_job_bytes total cls nitOverride ocfeOverride docDetect
        textDetect embText headCache fullCache ≠ Except.error ProcErr.fevRequired := by
      unfold process_job_bytes
      rw [if_neg hfev]
      dsimp only
      exact hl_ite_ne_fev _ _ _ _
    exact iff_of_false h2 (fun hr => hfev (by
      rw [List.length_eq_zero]
      exact (hl_pbc_empty_iff total Cat.FEV cls).mpr hr))

/-- C9 witness: a request whose only FEV entries have an unparsable key,
an out-of-range index, or a null value fails `FevRequired`. -/
theorem c9_process_filtering_fev_witness :
    process_job_bytes 2
        [("0", some Cat.HEV), ("x", some Cat.FEV), ("5", some Cat.FEV), ("1", none)]
        none none (none, none) (none, none) (fun _ => "") (fun _ => none)
        (fun _ => none) = Except.error ProcErr.fevRequired :=
  ((c9_process_filtering_fev 2
      [("0", some Cat.HEV), ("x", some Cat.FEV), ("5", some Cat.FEV), ("1", none)]
      none none (none, none) (none, none) (fun _ => "") (fun _ => none)
      (fun _ => none)).2).mpr (by decide)

/-- C10: retry with nothing to retry is a no-op — when no package has
status `error`, `retry-errors` answers `retried: 0`, does not spawn a
worker, does not save, and the metadata record is returned unchanged. -/
theorem c10_retry_noop (meta : BatchMeta)
    (h : ∀ p ∈ meta.packages, p.status ≠ "error") :
    retry_batch_errors meta = (meta, false, 0) := by
  unfold retry_batch_errors
  have hf : meta.packages.filter (fun p => decide (p.status = "error")) = [] := by
    rw [List.filter_eq_nil_iff]
    intro p hp
    simp [h p hp]
  simp [hf]

/-- C10 witness: a batch whose only package is `done` retries nothing and
keeps its metadata. -/
theorem c10_retry_noop_witness :
    retry_batch_errors
        ⟨"b1", "done", false,
          [⟨"p1", "p1", "done", none, none, none, none, none⟩], none, none, none⟩ =
      (⟨"b1", "done", false,
          [⟨"p1", "p1", "done", none, none, none, none, none⟩], none, none, none⟩,
        false, 0) :=
  c10_retry_noop _ (by decide)
